import Mathlib

/-!
Verification development for the rca calculator (rca.c, the 2026 version).

The engine stores every value as a C `long double` (x86-64 extended
precision, 64-bit mantissa).  The embedding models finite long-double
values as exact rationals and keeps the IEEE specials (NaN, +Inf, -Inf)
explicit, so arithmetic whose exact result is representable (all the
quantities the claims touch) is modelled exactly.  C casts that are
undefined behaviour for out-of-range values are modelled as partial
functions returning `Option`; an overall run result of `none` means the
source would hit undefined behaviour or a feature outside the model, and
every theorem below evaluates to `some`.

Platform parameters baked in, as computed by the program at startup on
the reference platform: `detect_epsilon` yields `epsilon = 2^-63` and
`max_precision = 18`; `setup_width(0)` yields `max_int_width = 64`; the
locale is the default "C" locale (decimal point ".", thousands separator
"," for input stripping, currency "$").
-/

namespace Rca

/-! ## Exact-rational helpers for the long-double operations -/

/-- Truncation toward zero, the semantics of the C cast `(long long)x`
for in-range arguments (`Int.tdiv` truncates toward zero, matching C). -/
def ratTrunc (q : ℚ) : ℤ := q.num.tdiv (q.den : ℤ)

/-- Floor of a rational, via Euclidean division (denominator is positive). -/
def ratFloor (q : ℚ) : ℤ := q.num.ediv (q.den : ℤ)

/-- `roundl`: round to nearest, halfway cases away from zero. -/
def roundAway (q : ℚ) : ℤ :=
  if 0 ≤ q then ratFloor (q + 1/2) else -(ratFloor (-q + 1/2))

/-- Decimal digit count of a natural number (fuelled structural version). -/
def digitCountAux : ℕ → ℕ → ℕ
  | 0, _ => 1
  | fuel + 1, n => if n < 10 then 1 else digitCountAux fuel (n / 10) + 1

def digitCount (n : ℕ) : ℕ := digitCountAux n n

/-- Smallest `k ≤ bound` with `a ≤ b * 10^k` (falls back to `bound`). -/
def smallestPow10 (a b : ℕ) : ℕ → ℕ
  | 0 => 0
  | bound + 1 => if a ≤ b then 0 else smallestPow10 (a) (b * 10) bound + 1

/-- Largest `m ≤ bound` with `a * 10^m ≤ b`. -/
def largestPow10 (a b : ℕ) : ℕ → ℕ
  | 0 => 0
  | bound + 1 => if a * 10 ≤ b then largestPow10 (a * 10) b bound + 1 else 0

/-- `ceill(log10l(q))` for `q > 0`, modelled exactly: the least `z : ℤ`
with `q ≤ 10^z`. -/
def ceilLog10 (q : ℚ) : ℤ :=
  if 1 < q then
    (smallestPow10 q.num.toNat q.den (digitCount q.num.toNat) : ℤ)
  else
    -(largestPow10 q.num.toNat q.den (digitCount q.den) : ℤ)

/-- `powl(10, z)` for integer exponents, exactly. -/
def tenPow (z : ℤ) : ℚ :=
  if 0 ≤ z then ((10 : ℚ) ^ z.toNat) else 1 / ((10 : ℚ) ^ (-z).toNat)

/-! ## Long-double values -/

/-- A long-double value: an exact rational for finite values, plus the
IEEE specials.  (Signed zero is conflated with zero; the program never
distinguishes them.) -/
inductive LD where
  | fin (q : ℚ)
  | pinf
  | ninf
  | nan
  deriving DecidableEq, Repr

namespace LD

def isFinite : LD → Bool
  | fin _ => true
  | _ => false

def isNan : LD → Bool
  | nan => true
  | _ => false

def neg : LD → LD
  | fin q => fin (-q)
  | pinf => ninf
  | ninf => pinf
  | nan => nan

def add : LD → LD → LD
  | nan, _ => nan
  | _, nan => nan
  | fin a, fin b => fin (a + b)
  | pinf, ninf => nan
  | ninf, pinf => nan
  | pinf, _ => pinf
  | ninf, _ => ninf
  | _, pinf => pinf
  | _, ninf => ninf

def sub (a b : LD) : LD := add a (neg b)

def mul : LD → LD → LD
  | nan, _ => nan
  | _, nan => nan
  | fin a, fin b => fin (a * b)
  | pinf, pinf => pinf
  | pinf, ninf => ninf
  | ninf, pinf => ninf
  | ninf, ninf => pinf
  | pinf, fin b => if b = 0 then nan else if 0 < b then pinf else ninf
  | ninf, fin b => if b = 0 then nan else if 0 < b then ninf else pinf
  | fin a, pinf => if a = 0 then nan else if 0 < a then pinf else ninf
  | fin a, ninf => if a = 0 then nan else if 0 < a then ninf else pinf

def div : LD → LD → LD
  | nan, _ => nan
  | _, nan => nan
  | fin a, fin b =>
      if b = 0 then
        if a = 0 then nan else if 0 < a then pinf else ninf
      else fin (a / b)
  | fin _, pinf => fin 0
  | fin _, ninf => fin 0
  | pinf, fin b => if 0 ≤ b then pinf else ninf
  | ninf, fin b => if 0 ≤ b then ninf else pinf
  | _, pinf => nan
  | _, ninf => nan

/-- `powl`, modelled only where the exact result is rational: finite
base, finite integral exponent.  Everything else is outside the model. -/
def pow : LD → LD → Option LD
  | fin a, fin b =>
      if b.den = 1 then
        if a = 0 then
          if b.num = 0 then some (fin 1)
          else if 0 < b.num then some (fin 0)
          else some pinf
        else some (fin (a ^ b.num))
      else none
  | _, _ => none

end LD

/-! ## Numeric mode and integer-width machinery -/

/-- The numeric mode: `mode` is one of {F, D, U, H, O, B, R}. -/
inductive Mode where
  | F | D | U | H | O | B | R
  deriving DecidableEq, Repr

/-- `floating_mode(m)`: true for float and raw-hex-float modes. -/
def floatingMode : Mode → Bool
  | .F => true
  | .R => true
  | _ => false

/-- `LLONG_MIN ≤ z ≤ LLONG_MAX`, the range where the C cast
`(long long)x` is defined. -/
def llInRange (z : ℤ) : Bool := decide (-(2 ^ 63) ≤ z) && decide (z < 2 ^ 63)

/-- The C cast `(long long)x` of a long double: truncate toward zero;
undefined (None) when the truncated value does not fit. -/
def llCast (q : ℚ) : Option ℤ :=
  if llInRange (ratTrunc q) then some (ratTrunc q) else none

/-- The C cast `(unsigned long long)x` of a long double: defined only
for truncated values in `[0, 2^64)`. -/
def ullCast (q : ℚ) : Option ℤ :=
  if 0 ≤ ratTrunc q && ratTrunc q < 2 ^ 64 then some (ratTrunc q) else none

/-- `sign_extend((long long)v & int_mask)` as one function of the active
width `W`: for `W = 64` the mask is `~0` and sign extension is the
identity on the 64-bit value; for `W < 64`, mask to the low `W` bits and
subtract `2^W` when the width-`W` sign bit is set.  (For `W = 64` the
source computes `int_sign_bit = 1LL << 63`, whose x86 value is
`LLONG_MIN`; `sign_extend` returns its argument unchanged there.) -/
def canonInt (W : ℕ) (z : ℤ) : ℤ :=
  if W = 64 then z
  else
    let m := z % (2 ^ W)
    if 2 ^ (W - 1) ≤ m then m - 2 ^ W else m

/-! ## Float stabilization ("snapping"), `detect_epsilon` and `tweak_float` -/

/-- The machine epsilon `detect_epsilon` finds for the 64-bit-mantissa
long double: halving stops at `2^-63` (since `1 + 2^-64` rounds to `1`). -/
def epsilon : ℚ := 1 / 2 ^ 63

/-- `max_precision = (int)(-log10l(epsilon)) = 18` on the reference
platform. -/
def maxPrecision : ℕ := 18

/-- `tweak_float` on a finite value (the zero, non-finite and
rounding-disabled early-outs included).  `roundl`, `ceill`, `log10l` and
`powl(10, _)` are modelled exactly. -/
def tweakQ (doRounding : Bool) (x : ℚ) : ℚ :=
  if !doRounding then x
  else if x = 0 then x
  else
    let absX := |x|
    let tolerance := epsilon * 20
    let tolerance := if 1 < absX then tolerance * absX else tolerance
    let r : ℚ := (roundAway x : ℤ)
    if |x - r| ≤ tolerance then r
    else
      let factor := tenPow ((maxPrecision : ℤ) - ceilLog10 absX)
      (roundAway (x * factor) : ℤ) / factor

/-- `tweak_float` on a long-double value: non-finite values pass through
(callers only apply it to finite values anyway). -/
def tweakLD (doRounding : Bool) : LD → LD
  | .fin q => .fin (tweakQ doRounding q)
  | v => v

/-! ## Error reports

`error(...)` writes one line to stderr; each modelled call site gets one
tag.  (`exit_on_error` is FALSE throughout the model: the `errorexit`
command is not modelled.) -/

inductive Err where
  | emptyStack          -- " empty stack" (pop)
  | bugStackDrop        -- "BUG: stack level dropped ... during infix" (pop)
  | bugStackChanged     -- "BUG: stack changed by ... after infix" (thaw_lastx)
  | seqError            -- " error: bad expression sequence, at ... and ..."
  | unrecognized        -- " error: unrecognized input ..."
  | illegalChar         -- " error: illegal character in input"
  | missingParens       -- " error: missing parentheses"
  | unsuitableOper      -- " error: '...' unsuitable in infix expression"
  | mismatchedParens    -- " warning: mismatched/extra parentheses" (close_paren)
  | shiftNegative       -- " error: shift by negative not allowed"
  | bitwiseTooBig       -- " error: bitwise operand(s) bigger/smaller than ..."
  | accuracyLost        -- "     # warning: accuracy lost, was ..." (print_n conv)
  deriving DecidableEq, Repr

/-! ## The operator catalog (`struct oper opers[]`)

`func` is the C function pointer, identified by the function's name;
entries without a function (section headers and blank separators) never
match during tokenizing.  `operands` uses the source's sentinels
`Sym = -1` (named constant) and `Lval = -2` (assignable).  The display-only `help` strings are omitted
(nothing in the engine reads them). -/

structure Oper where
  name : String
  func : Option String
  operands : Int
  prec : Nat
  deriving DecidableEq, Repr

def symArity : Int := -1
def lvalArity : Int := -2

/-- The token produced by `parse_tok`: type tag plus payload. -/
inductive Token where
  | num (v : LD)          -- NUMERIC
  | op (o : Oper)         -- OP
  | sym (o : Oper)        -- SYMBOLIC
  | lval (o : Oper)       -- LVALUE
  | eol                   -- EOL
  | unk                   -- UNKNOWN
  deriving DecidableEq, Repr

/-! ## Engine state

The free-standing globals of rca.c gathered in one record.  Display-only
state (format strings, autoprint flags, pending output) is omitted; the
in-place stack conversion done by the display path on a mode switch is
kept, because it mutates stack values. -/

structure State where
  stack : List LD              -- struct num *stack (head = top)
  mode : Mode                  -- int mode = 'F'
  intWidth : ℕ                 -- int int_width (setup_width(0) gives 64)
  lastx : LD                   -- ldouble lastx
  frozenLastx : LD             -- ldouble frozen_lastx
  lastxFrozen : Bool           -- boolean lastx_is_frozen
  stacklevel : ℤ               -- int infix_stacklevel
  stackMark : ℕ                -- int stack_mark
  rpnQueue : List Token        -- token *infix_rpn_queue (head = next token)
  inputRest : Option (List Char)  -- char *input_ptr (none = NULL)
  errors : List Err            -- lines written through error()
  doRounding : Bool            -- boolean do_rounding = 1
  deriving DecidableEq, Repr

def initState : State :=
  { stack := [], mode := .F, intWidth := 64, lastx := .fin 0,
    frozenLastx := .fin 0, lastxFrozen := false, stacklevel := 0,
    stackMark := 0, rpnQueue := [], inputRest := none, errors := [],
    doRounding := true }

def addErr (s : State) (e : Err) : State := { s with errors := s.errors ++ [e] }

/-! ## Operand stack: `push`, `pop`, `peek`, `result_push` -/

/-- `push(n)`: float mode and non-finite values store the value
unchanged; an integer mode stores `sign_extend((long long)n & int_mask)`
(undefined for values whose truncation exceeds the long-long range). -/
def pushLD (s : State) (n : LD) : Option State :=
  match n with
  | .fin q =>
      if floatingMode s.mode then some { s with stack := .fin q :: s.stack }
      else (llCast q).map fun z =>
        { s with stack := .fin ((canonInt s.intWidth z : ℤ) : ℚ) :: s.stack }
  | v => some { s with stack := v :: s.stack }

/-- `result_push(n)`: apply `tweak_float` to finite values, then `push`. -/
def resultPush (s : State) (n : LD) : Option State :=
  if n.isFinite then pushLD s (tweakLD s.doRounding n) else pushLD s n

/-- `pop(&f)`: returns the popped value (or none, reporting
" empty stack"), plus the successor state (stack-mark maintenance and
the infix-stacklevel sanity check included). -/
def popLD (s : State) : Option LD × State :=
  match s.stack with
  | [] => (none, addErr s .emptyStack)
  | v :: rest =>
      let s' := { s with stack := rest }
      let s' := if (rest.length : ℤ) < s'.stacklevel then addErr s' .bugStackDrop else s'
      let s' := if rest.length < s'.stackMark then { s' with stackMark := 0 } else s'
      (some v, s')

/-- `peek(&f)`. -/
def peekLD (s : State) : Option LD := s.stack.head?

/-! ## The lastx freeze/thaw machinery -/

/-- `freeze_lastx`: on the first queue token of an expression, capture
the current top of stack (0 when empty) and the stack level. -/
def freezeLastx (s : State) : State :=
  if !s.lastxFrozen then
    { s with frozenLastx := s.stack.headD (.fin 0), lastxFrozen := true,
             stacklevel := (s.stack.length : ℤ) }
  else s

/-- `thaw_lastx`: commit the frozen value into `lastx` when the first
non-queue token arrives. -/
def thawLastx (s : State) : State :=
  if s.lastxFrozen then
    let s' := { s with lastxFrozen := false, lastx := s.frozenLastx }
    let s' := if (s'.stack.length : ℤ) ≠ s'.stacklevel + 1 then addErr s' .bugStackChanged else s'
    { s' with stacklevel := -1 }
  else s

/-! ## Stack re-canonicalization on mode/width changes -/

/-- `check_int_truncation(&n, conv)`: non-finite values become
`sign_extend(int_sign_bit)` (the minimum integer of the active width;
`print_n` in fact returns before calling this for non-finite values, so
that branch is dead in the program); finite values are masked and
sign-extended.  Returns the converted value and whether it changed.
Partial: the `(long long)` cast of an over-range finite value is
undefined behaviour. -/
def checkIntTruncation (W : ℕ) : LD → Option (LD × Bool)
  | .fin q =>
      (llCast q).map fun z =>
        let c : ℚ := (canonInt W z : ℤ)
        if q = c then (.fin q, false) else (.fin c, true)
  | _ => some (.fin (-(2 ^ (W - 1) : ℤ) : ℚ), true)

/-- The stack walk done by `printstack(1, stack)` when a mode command
switches into an integer mode: each FINITE entry is converted in place
by `print_n(..., conv=1)`, which reports an accuracy-loss warning per
changed entry (bottom of the stack first).  `print_n` returns before
the conversion for non-finite values (they are printed in floating
format), so NaN/Inf entries are left unchanged by a mode switch. -/
def convStack (W : ℕ) : List LD → Option (List LD × List Err)
  | [] => some ([], [])
  | v :: rest =>
      if v.isFinite then
        match convStack W rest, checkIntTruncation W v with
        | some (rest', errs), some (v', changed) =>
            some (v' :: rest', errs ++ if changed then [.accuracyLost] else [])
        | _, _ => none
      else
        (convStack W rest).map fun pr => (v :: pr.1, pr.2)

/-- A mode command switching into integer mode `m`:
`mode = m; showmode(); printstack(1, stack);`.  The display work is
dropped; the in-place conversion is kept. -/
def modeSwitchInt (s : State) (m : Mode) : Option (Bool × State) :=
  (convStack s.intWidth s.stack).map fun (st, errs) =>
    (true, { s with mode := m, stack := st, errors := s.errors ++ errs })

/-- `modefloat` (and the other floating-mode switch): `print_n` returns
before the conversion for floating formats, so the stack is untouched. -/
def modeSwitchFloat (s : State) (m : Mode) : Option (Bool × State) :=
  some (true, { s with mode := m })

/-- `mask_stack()`: re-canonicalize every finite entry in place
(non-finite entries are left alone, unlike `check_int_truncation`). -/
def maskStack (W : ℕ) : List LD → Option (List LD)
  | [] => some []
  | .fin q :: rest =>
      match llCast q, maskStack W rest with
      | some z, some rest' => some (.fin ((canonInt W z : ℤ) : ℚ) :: rest')
      | _, _ => none
  | v :: rest => (maskStack W rest).map fun rest' => v :: rest'

/-- `width()`: pop the bit count, clamp it to `[2, 64]` (`0` selects the
maximum), record it, and re-canonicalize the stack when an integer mode
is active.  (`max_int_width = 64` on the reference platform; the
out-of-range messages are plain printf output, not `error()`.) -/
def widthOp (s : State) : Option (Bool × State) :=
  match popLD s with
  | (none, s1) => some (false, s1)
  | (some n, s1) =>
      match n with
      | .fin q =>
          (llCast q).bind fun bits =>
            let bits : ℤ := if bits = 0 then 64 else if 64 < bits then 64 else if bits < 2 then 2 else bits
            let s2 := { s1 with intWidth := bits.toNat }
            if floatingMode s2.mode then some (true, s2)
            else (maskStack s2.intWidth s2.stack).map fun st =>
              (true, { s2 with stack := st })
      | _ => none  -- the (long long) cast of a non-finite value is UB

/-! ## Arithmetic and bitwise operators -/

/-- The shared body of the two-operand arithmetic operators: pop x and
y, push the result through `result_push`, record `lastx = x`; on a
missing second operand restore the first. -/
def binArith (f : LD → LD → LD) (s : State) : Option (Bool × State) :=
  match popLD s with
  | (none, s1) => some (false, s1)
  | (some b, s1) =>
      match popLD s1 with
      | (none, s2) => (pushLD s2 b).map fun s3 => (false, s3)
      | (some a, s2) =>
          (resultPush s2 (f a b)).map fun s3 => (true, { s3 with lastx := b })

/-- `y_to_the_x`: like the other binary operators but through `powl`. -/
def powOp (s : State) : Option (Bool × State) :=
  match popLD s with
  | (none, s1) => some (false, s1)
  | (some b, s1) =>
      match popLD s1 with
      | (none, s2) => (pushLD s2 b).map fun s3 => (false, s3)
      | (some a, s2) =>
          (LD.pow a b).bind fun r =>
            (resultPush s2 r).map fun s3 => (true, { s3 with lastx := b })

/-- `chsign`: `push(-a)` (plain push, not `result_push`). -/
def chsignOp (s : State) : Option (Bool × State) :=
  match popLD s with
  | (none, s1) => some (false, s1)
  | (some a, s1) => (pushLD s1 a.neg).map fun s2 => (true, { s2 with lastx := a })

/-- `repush` (the `lastx` command): push the frozen value during an
expression, the live register otherwise. -/
def repushOp (s : State) : Option (Bool × State) :=
  (pushLD s (if s.lastxFrozen then s.frozenLastx else s.lastx)).map fun s' => (true, s')

/-- `exchange`. -/
def exchangeOp (s : State) : Option (Bool × State) :=
  match popLD s with
  | (none, s1) => some (false, s1)
  | (some b, s1) =>
      match popLD s1 with
      | (none, s2) => (pushLD s2 b).map fun s3 => (false, s3)
      | (some a, s2) =>
          (pushLD s2 b).bind fun s3 => (pushLD s3 a).map fun s4 => (true, s4)

/-- `enter` (`dup`). -/
def enterOp (s : State) : Option (Bool × State) :=
  match popLD s with
  | (none, s1) => some (false, s1)
  | (some a, s1) =>
      (pushLD s1 a).bind fun s2 => (pushLD s2 a).map fun s3 => (true, s3)

/-- `rolldown` (`pop`): pop the top into `lastx`, ignoring failure. -/
def rolldownOp (s : State) : Option (Bool × State) :=
  match popLD s with
  | (none, s1) => some (true, s1)
  | (some a, s1) => some (true, { s1 with lastx := a })

/-- The `while(stack) pop(&scrap)` loop of `clear`, with each pop's
bookkeeping replayed. -/
def clearLoop (s : State) : ℕ → State
  | 0 => s
  | n + 1 => match popLD s with
             | (_, s') => clearLoop s' n

/-- `clear`: record the top in `lastx`, then pop everything. -/
def clearOp (s : State) : Option (Bool × State) :=
  match peekLD s with
  | none => some (true, s)
  | some v => some (true, clearLoop { s with lastx := v } s.stack.length)

/-- `bothfinite(a, b)` together with its caller's early return: when a
special is present, push the offending operand back (NaN first, then
Inf, `a` before `b`) and report success without operating. -/
def bothFinite (a b : LD) (s : State) : Option (Bool × State) :=
  if a.isFinite && b.isFinite then none  -- none = proceed with the operation
  else if a.isNan then (pushLD s a).map fun s' => (true, s')
  else if b.isNan then (pushLD s b).map fun s' => (true, s')
  else if !a.isFinite then (pushLD s a).map fun s' => (true, s')
  else (pushLD s b).map fun s' => (true, s')

/-- `bitwise_operands_too_big`: the bounds are the long doubles
`(ldouble)LLONG_MIN = -2^63` and `(ldouble)LLONG_MAX = 2^63 - 1` (both
exactly representable in the 64-bit mantissa). -/
def tooBig2 (a b : ℚ) : Bool :=
  decide (a < -(2 ^ 63 : ℚ)) || decide ((2 ^ 63 - 1 : ℚ) < a) ||
  decide (b < -(2 ^ 63 : ℚ)) || decide ((2 ^ 63 - 1 : ℚ) < b)

/-- `rshift`: logical right shift of y by x bits.  A negative count is
an error with both operands restored; a count at or beyond the bit size
of a long double (128) pushes 0; a count in `[64, 128)` reaches a C
shift whose behaviour is undefined (not modelled). -/
def rshiftOp (s : State) : Option (Bool × State) :=
  match popLD s with
  | (none, s1) => some (false, s1)
  | (some b, s1) =>
      match popLD s1 with
      | (none, s2) => (pushLD s2 b).map fun s3 => (false, s3)
      | (some a, s2) =>
          match bothFinite a b s2 with
          | some r => some r
          | none =>
              match a, b with
              | .fin qa, .fin qb =>
                  if tooBig2 qa qb then
                    (pushLD s2 a).bind fun s3 => (pushLD s3 b).map fun s4 =>
                      (false, addErr s4 .bitwiseTooBig)
                  else
                    (ullCast qa).bind fun i => (llCast qb).bind fun j =>
                      if j < 0 then
                        (pushLD s2 a).bind fun s3 => (pushLD (addErr s3 .shiftNegative) b).map fun s4 =>
                          (false, s4)
                      else if (128 : ℚ) ≤ qb then
                        (pushLD s2 (.fin 0)).map fun s3 => (true, { s3 with lastx := b })
                      else if 64 ≤ j then none  -- 64-bit >> by 64..127 is UB
                      else
                        (pushLD s2 (.fin ((i / 2 ^ j.toNat : ℤ) : ℚ))).map fun s3 =>
                          (true, { s3 with lastx := b })
              | _, _ => none

/-- `lshift`: left shift of y by x bits, same validation as `rshift`;
the shift itself is `long long` arithmetic, undefined on overflow or a
negative left operand. -/
def lshiftOp (s : State) : Option (Bool × State) :=
  match popLD s with
  | (none, s1) => some (false, s1)
  | (some b, s1) =>
      match popLD s1 with
      | (none, s2) => (pushLD s2 b).map fun s3 => (false, s3)
      | (some a, s2) =>
          match bothFinite a b s2 with
          | some r => some r
          | none =>
              match a, b with
              | .fin qa, .fin qb =>
                  if tooBig2 qa qb then
                    (pushLD s2 a).bind fun s3 => (pushLD s3 b).map fun s4 =>
                      (false, addErr s4 .bitwiseTooBig)
                  else
                    (llCast qa).bind fun i => (llCast qb).bind fun j =>
                      if j < 0 then
                        (pushLD s2 a).bind fun s3 => (pushLD (addErr s3 .shiftNegative) b).map fun s4 =>
                          (false, s4)
                      else if (128 : ℚ) ≤ qb then
                        (pushLD s2 (.fin 0)).map fun s3 => (true, { s3 with lastx := b })
                      else if 64 ≤ j then none
                      else if i < 0 || 2 ^ 63 ≤ i * 2 ^ j.toNat then none  -- << UB
                      else
                        (pushLD s2 (.fin ((i * 2 ^ j.toNat : ℤ) : ℚ))).map fun s3 =>
                          (true, { s3 with lastx := b })
              | _, _ => none

/-- `close_paren` typed outside an expression: a warning, nothing else. -/
def closeParenOp (s : State) : Option (Bool × State) :=
  some (false, addErr s .mismatchedParens)

/-! ## The operator table -/

/-- `struct oper opers[]`, transcribed row by row (section headers and
blank separators have no function pointer and never match input).
`PRINTF_SEPARATORS` is 1 on the reference platform, so the `separators`
rows are present. -/
def opersPart1 : List Oper := [
  ⟨"Numerical operators with two operands:", none, 0, 0⟩,
  ⟨"+", some "add", 2, 18⟩,
  ⟨"-", some "subtract", 2, 18⟩,
  ⟨"*", some "multiply", 2, 20⟩,
  ⟨"x", some "multiply", 2, 20⟩,
  ⟨"/", some "divide", 2, 20⟩,
  ⟨"%", some "modulo", 2, 20⟩,
  ⟨"^", some "y_to_the_x", 2, 22⟩,
  ⟨"**", some "y_to_the_x", 2, 22⟩,
  ⟨">>", some "rshift", 2, 16⟩,
  ⟨"<<", some "lshift", 2, 16⟩,
  ⟨"&", some "bitwise_and", 2, 14⟩,
  ⟨"|", some "bitwise_or", 2, 10⟩,
  ⟨"xor", some "bitwise_xor", 2, 12⟩,
  ⟨"setb", some "setbit", 2, 10⟩,
  ⟨"clearb", some "clearbit", 2, 14⟩,
  ⟨"=", some "assignment", 2, 1⟩,
  ⟨"", none, 0, 0⟩]

def opersPart2 : List Oper := [
  ⟨"Numerical operators with one operand:", none, 0, 0⟩,
  ⟨"~", some "bitwise_not", 1, 26⟩,
  ⟨"chs", some "chsign", 1, 26⟩,
  ⟨"negate", some "chsign", 1, 26⟩,
  ⟨"nop", some "nop", 1, 26⟩,
  ⟨"recip", some "recip", 1, 26⟩,
  ⟨"sqrt", some "squarert", 1, 26⟩,
  ⟨"sin", some "sine", 1, 26⟩,
  ⟨"cos", some "cosine", 1, 26⟩,
  ⟨"tan", some "tangent", 1, 26⟩,
  ⟨"asin", some "asine", 1, 26⟩,
  ⟨"acos", some "acosine", 1, 26⟩,
  ⟨"atan", some "atangent", 1, 26⟩,
  ⟨"atan2", some "atangent2", 2, 26⟩,
  ⟨"exp", some "e_to_the_x", 1, 26⟩,
  ⟨"ln", some "log_natural", 1, 26⟩,
  ⟨"log2", some "log_base2", 1, 26⟩,
  ⟨"log10", some "log_base10", 1, 26⟩]

def opersPart3 : List Oper := [
  ⟨"abs", some "absolute", 1, 26⟩,
  ⟨"frac", some "fraction", 1, 26⟩,
  ⟨"int", some "integer", 1, 26⟩,
  ⟨"(", some "open_paren", 0, 28⟩,
  ⟨")", some "close_paren", 0, 0⟩,
  ⟨"", none, 0, 0⟩,
  ⟨"Logical operators (mostly two operands):", none, 0, 0⟩,
  ⟨"&&", some "logical_and", 2, 4⟩,
  ⟨"||", some "logical_or", 2, 2⟩,
  ⟨"==", some "is_eq", 2, 6⟩,
  ⟨"!=", some "is_neq", 2, 6⟩,
  ⟨"<", some "is_lt", 2, 8⟩,
  ⟨"<=", some "is_le", 2, 8⟩,
  ⟨">", some "is_gt", 2, 8⟩,
  ⟨">=", some "is_ge", 2, 8⟩,
  ⟨"!", some "logical_not", 1, 26⟩,
  ⟨"", none, 0, 0⟩,
  ⟨"Stack manipulation:", none, 0, 0⟩]

def opersPart4 : List Oper := [
  ⟨"clear", some "clear", 0, 0⟩,
  ⟨"pop", some "rolldown", 0, 0⟩,
  ⟨"push", some "enter", 0, 0⟩,
  ⟨"dup", some "enter", 0, 0⟩,
  ⟨"lastx", some "repush", symArity, 0⟩,
  ⟨"lx", some "repush", symArity, 0⟩,
  ⟨"exch", some "exchange", 0, 0⟩,
  ⟨"swap", some "exchange", 0, 0⟩,
  ⟨"mark", some "mark", 0, 0⟩,
  ⟨"sum", some "sum", 0, 0⟩,
  ⟨"avg", some "avg", 0, 0⟩,
  ⟨"", none, 0, 0⟩,
  ⟨"Constants and storage (no operands):", none, 0, 0⟩,
  ⟨"store", some "store1", lvalArity, 0⟩,
  ⟨"recall", some "recall1", symArity, 0⟩,
  ⟨"s1", some "store1", lvalArity, 0⟩,
  ⟨"s2", some "store2", lvalArity, 0⟩,
  ⟨"s3", some "store3", lvalArity, 0⟩]

def opersPart5 : List Oper := [
  ⟨"s4", some "store4", lvalArity, 0⟩,
  ⟨"s5", some "store5", lvalArity, 0⟩,
  ⟨"r1", some "recall1", symArity, 0⟩,
  ⟨"r2", some "recall2", symArity, 0⟩,
  ⟨"r3", some "recall3", symArity, 0⟩,
  ⟨"r4", some "recall4", symArity, 0⟩,
  ⟨"r5", some "recall5", symArity, 0⟩,
  ⟨"pi", some "push_pi", symArity, 0⟩,
  ⟨"e", some "push_e", symArity, 0⟩,
  ⟨"", none, 0, 0⟩,
  ⟨"Unit conversions (one operand):", none, 0, 0⟩,
  ⟨"i2mm", some "units_in_mm", 1, 26⟩,
  ⟨"mm2i", some "units_mm_in", 1, 26⟩,
  ⟨"ft2m", some "units_ft_m", 1, 26⟩,
  ⟨"m2ft", some "units_m_ft", 1, 26⟩,
  ⟨"mi2km", some "units_mi_km", 1, 26⟩,
  ⟨"km2mi", some "units_km_mi", 1, 26⟩,
  ⟨"f2c", some "units_F_C", 1, 26⟩]

def opersPart6 : List Oper := [
  ⟨"c2f", some "units_C_F", 1, 26⟩,
  ⟨"oz2g", some "units_oz_g", 1, 26⟩,
  ⟨"g2oz", some "units_g_oz", 1, 26⟩,
  ⟨"oz2ml", some "units_oz_ml", 1, 26⟩,
  ⟨"ml2oz", some "units_ml_oz", 1, 26⟩,
  ⟨"q2l", some "units_qt_l", 1, 26⟩,
  ⟨"l2q", some "units_l_qt", 1, 26⟩,
  ⟨"d2r", some "units_deg_rad", 1, 26⟩,
  ⟨"r2d", some "units_rad_deg", 1, 26⟩,
  ⟨"", none, 0, 0⟩,
  ⟨"Display:", none, 0, 0⟩,
  ⟨"P", some "printall", 0, 0⟩,
  ⟨"p", some "printone", 0, 0⟩,
  ⟨"f", some "printfloat", 0, 0⟩,
  ⟨"d", some "printdec", 0, 0⟩,
  ⟨"u", some "printuns", 0, 0⟩,
  ⟨"h", some "printhex", 0, 0⟩,
  ⟨"o", some "printoct", 0, 0⟩]

def opersPart7 : List Oper := [
  ⟨"b", some "printbin", 0, 0⟩,
  ⟨"state", some "printstate", 0, 0⟩,
  ⟨"", none, 0, 0⟩,
  ⟨"Modes:", none, 0, 0⟩,
  ⟨"F", some "modefloat", 0, 0⟩,
  ⟨"D", some "modedec", 0, 0⟩,
  ⟨"U", some "modeuns", 0, 0⟩,
  ⟨"H", some "modehex", 0, 0⟩,
  ⟨"O", some "modeoct", 0, 0⟩,
  ⟨"B", some "modebin", 0, 0⟩,
  ⟨"precision", some "precision", 0, 0⟩,
  ⟨"k", some "precision", 0, 0⟩,
  ⟨"decimals", some "decimal_length", 0, 0⟩,
  ⟨"K", some "decimal_length", 0, 0⟩,
  ⟨"width", some "width", 0, 0⟩,
  ⟨"w", some "width", 0, 0⟩,
  ⟨"degrees", some "use_degrees", 0, 0⟩,
  ⟨"autoprint", some "autop", 0, 0⟩]

def opersPart8 : List Oper := [
  ⟨"a", some "autop", 0, 0⟩,
  ⟨"separators", some "separators", 0, 0⟩,
  ⟨"s", some "separators", 0, 0⟩,
  ⟨"mode", some "modeinfo", 0, 0⟩,
  ⟨"", none, 0, 0⟩,
  ⟨"Debug support:", none, 0, 0⟩,
  ⟨"r", some "printrawhex", 0, 0⟩,
  ⟨"R", some "moderawhex", 0, 0⟩,
  ⟨"rounding", some "rounding", 0, 0⟩,
  ⟨"tracing", some "tracetoggle", 0, 0⟩,
  ⟨"", none, 0, 0⟩,
  ⟨"Housekeeping:", none, 0, 0⟩,
  ⟨"?", some "help", 0, 0⟩,
  ⟨"help", some "help", 0, 0⟩,
  ⟨"precedence", some "precedence", 0, 0⟩,
  ⟨"quit", some "quit", 0, 0⟩,
  ⟨"q", some "quit", 0, 0⟩,
  ⟨"exit", some "quit", 0, 0⟩]

def opersPart9 : List Oper := [
  ⟨"errorexit", some "enable_errexit", 0, 0⟩,
  ⟨"license", some "license", 0, 0⟩,
  ⟨"#", some "help", 0, 0⟩]

/-- The full table, in source order. -/
def opers : List Oper :=
  opersPart1 ++ opersPart2 ++ opersPart3 ++ opersPart4 ++ opersPart5 ++ opersPart6 ++ opersPart7 ++ opersPart8 ++ opersPart9

/-! ## The tokenizer (`parse_tok` and helpers) -/

def isspaceC (c : Char) : Bool :=
  c = ' ' || c = '\t' || c = '\n' || c = Char.ofNat 11 || c = Char.ofNat 12 || c = '\r'

def isdigitC (c : Char) : Bool := '0' ≤ c && c ≤ '9'

def isalphaC (c : Char) : Bool := ('a' ≤ c && c ≤ 'z') || ('A' ≤ c && c ≤ 'Z')

def isalnumC (c : Char) : Bool := isalphaC c || isdigitC c

def ispunctC (c : Char) : Bool :=
  33 ≤ c.toNat && c.toNat ≤ 126 && !isalnumC c

/-- `stralnum`: the length of the run of alphanumeric-or-underscore
characters at the front. -/
def alnumRunLen : List Char → ℕ
  | [] => 0
  | c :: cs => if isalnumC c || c = '_' then alnumRunLen cs + 1 else 0

/-- Accumulate a digit string in the given base (2, 8, 10 or 16),
returning value, digit count, and the rest.  Models the digit loop of
`strtoull`/`strtold` (no leading-space or sign skipping: the callers
position the cursor on the first digit). -/
def takeDigitsB (base : ℕ) : List Char → ℕ → ℕ → ℕ × ℕ × List Char
  | [], acc, cnt => (acc, cnt, [])
  | c :: cs, acc, cnt =>
      let d : ℕ :=
        if isdigitC c then c.toNat - 48
        else if 'a' ≤ c && c ≤ 'f' then c.toNat - 87
        else if 'A' ≤ c && c ≤ 'F' then c.toNat - 55
        else base
      if d < base then takeDigitsB base cs (acc * base + d) (cnt + 1)
      else (acc, cnt, c :: cs)

/-- The optional exponent part of `strtold` (`e`/`E`, optional sign,
then digits; consumed only when at least one digit follows). -/
def parseExp (m : ℚ) (r : List Char) : ℚ × List Char :=
  match r with
  | c :: r1 =>
      if c = 'e' || c = 'E' then
        let (sgn, r2) : ℤ × List Char :=
          match r1 with
          | '+' :: r2 => (1, r2)
          | '-' :: r2 => (-1, r2)
          | _ => (1, r1)
        let (ev, cnt, r3) := takeDigitsB 10 r2 0 0
        if cnt = 0 then (m, r) else (m * tenPow (sgn * ev), r3)
      else (m, r)
  | [] => (m, [])

/-- `strtold` on a decimal literal (the caller guarantees the first
character is a digit or the decimal point).  Returns none when nothing
is consumed.  The decimal value is modelled exactly (the conversion to
the nearest long double is the identity on this abstraction). -/
def parseDecimal (p : List Char) : Option (ℚ × List Char) :=
  let (ip, icnt, r1) := takeDigitsB 10 p 0 0
  match r1 with
  | '.' :: r =>
      let (fp, fcnt, r2) := takeDigitsB 10 r 0 0
      if icnt = 0 && fcnt = 0 then none
      else some (parseExp ((ip : ℚ) + (fp : ℚ) / 10 ^ fcnt) r2)
  | _ => if icnt = 0 then none else some (parseExp (ip : ℚ) r1)

/-- The result of `parse_tok`: a token and the advanced cursor, or the
two failure modes (both make `parse_tok` return 0 with an UNKNOWN
token; the illegal-character case also prints its own error line). -/
inductive ParseRes where
  | ok (t : Token) (rest : List Char)
  | illegal
  | unknown
  deriving DecidableEq, Repr

/-- Look a name up in the operator table (entries without a function are
skipped; the match is exact length-and-content). -/
def operLookup (nm : List Char) : Option Oper :=
  opers.find? fun o => o.func.isSome && o.name.toList = nm

/-- The hard-coded two-character punctuation operators. -/
def doublePunct (a b : Char) : Bool :=
  (a = '>' && b = '>') || (a = '<' && b = '<') ||
  (a = '>' && b = '=') || (a = '<' && b = '=') ||
  (a = '=' && b = '=') || (a = '!' && b = '=') ||
  (a = '&' && b = '&') || (a = '|' && b = '|') ||
  (a = '*' && b = '*')

/-- The `is_oper` tail of `parse_tok`: operator-name recognition. -/
def operParse (p : List Char) : ParseRes :=
  match p with
  | [] => .illegal
  | c :: rest =>
      if isalphaC c then
        let n := alnumRunLen p
        match operLookup (p.take n) with
        | some o =>
            .ok (if o.operands = symArity then .sym o
                 else if o.operands = lvalArity then .lval o
                 else .op o) (p.drop n)
        | none => .unknown
      else if ispunctC c then
        let n : ℕ := match rest with
                     | c2 :: _ => if doublePunct c c2 then 2 else 1
                     | [] => 1
        match operLookup (p.take n) with
        | some o =>
            .ok (if o.operands = symArity then .sym o
                 else if o.operands = lvalArity then .lval o
                 else .op o) (p.drop n)
        | none => .unknown
      else .illegal

/-- The numeric-literal branches of `parse_tok` (the cursor has already
absorbed an RPN sign into `sign`).  `raw_hex_input_ok` is FALSE
throughout the model (the raw-float input toggle is display-driven and
not modelled), so the hex branch reads simple hex integers. -/
def numParse (p : List Char) (sign : ℤ) : ParseRes :=
  match p with
  | '0' :: x :: rest =>
      if x = 'x' || x = 'X' then
        -- strtoull(p, nextp, 16): "0x" with no hex digit consumes "0"
        let (v, cnt, r) := takeDigitsB 16 rest 0 0
        if cnt = 0 then .ok (.num (.fin 0)) (x :: rest)
        else .ok (.num (.fin ((v : ℚ) * (sign : ℚ)))) r
      else if x = 'b' || x = 'B' then
        -- strtoull(p+2, nextp, 2): "0b" with no binary digit consumes "0b"
        let (v, cnt, r) := takeDigitsB 2 rest 0 0
        if cnt = 0 then .ok (.num (.fin 0)) rest
        else .ok (.num (.fin ((v : ℚ) * (sign : ℚ)))) r
      else if '0' ≤ x && x ≤ '7' then
        let (v, _, r) := takeDigitsB 8 p 0 0
        .ok (.num (.fin ((v : ℚ) * (sign : ℚ)))) r
      else
        match parseDecimal p with
        | some (q, r) => .ok (.num (.fin (q * (sign : ℚ)))) r
        | none => .unknown
  | c :: _ =>
      if isdigitC c || c = '.' then
        match parseDecimal p with
        | some (q, r) => .ok (.num (.fin (q * (sign : ℚ)))) r
        | none => .unknown
      else operParse p
  | [] => operParse p

/-- `parse_tok(p, t, nextp, parsing_rpn)`: in RPN a leading `+`/`-`
binds to an immediately following digit or decimal point; a bare sign
followed by whitespace or end of line is an operator; anything else
after a sign is unrecognized. -/
def parseTok (p : List Char) (parsingRpn : Bool) : ParseRes :=
  match p with
  | c :: rest =>
      if parsingRpn && (c = '+' || c = '-') then
        let nxt := rest.head?
        let nxtNum := match nxt with
                      | some d => d = '.' || isdigitC d
                      | none => false
        if c = '+' && nxtNum then numParse rest 1
        else if c = '-' && nxtNum then numParse rest (-1)
        else if (match nxt with
                 | some d => isspaceC d
                 | none => true) then operParse p
        else .unknown
      else numParse p 1
  | [] => numParse p 1

/-! ## The shunting-yard expression compiler (`open_paren`) -/

/-- The support tokens built once at startup by
`create_infix_support_tokens` (via `parse_tok` on "(", "chs", "nop"). -/
def findOper (nm : String) : Oper :=
  (operLookup nm.toList).getD ⟨"", none, 0, 0⟩

def openParenTok : Token := .op (findOper "(")
def chsignTok : Token := .op (findOper "chs")
def nopTok : Token := .op (findOper "nop")

/-- `prev_tok_was_operand`. -/
def prevOperand : Token → Bool
  | .num _ => true
  | .sym _ => true
  | .op o => o.func = some "close_paren"
  | _ => false

def isOpenParenT : Token → Bool
  | .op o => o.func = some "open_paren"
  | _ => false

def isLvalT : Token → Bool
  | .lval _ => true
  | _ => false

def isAssignT : Token → Bool
  | .op o => o.func = some "assignment"
  | _ => false

/-- The function pointer of an operator-carrying token (used for the
stack-top tests; only OP/SYMBOLIC/LVALUE tokens live on these stacks). -/
def tokOper : Token → Oper
  | .op o => o
  | .sym o => o
  | .lval o => o
  | _ => ⟨"", none, 0, 0⟩

/-- The close-paren transfer: pop the operator stack until an opening
parenthesis is exposed (or the stack empties), returning the popped
tokens in pop order and the remainder. -/
def popUntilOpen : List Token → List Token × List Token
  | [] => ([], [])
  | t :: rest =>
      if isOpenParenT t then ([], t :: rest)
      else
        let (popped, remaining) := popUntilOpen rest
        (t :: popped, remaining)

/-- The `while` transfer for a unary operator: pop strictly greater
precedence (stopping at any parenthesis). -/
def popUnary (prec : Nat) : List Token → List Token × List Token
  | [] => ([], [])
  | t :: rest =>
      if !isOpenParenT t && prec < (tokOper t).prec then
        let (popped, remaining) := popUnary prec rest
        (t :: popped, remaining)
      else ([], t :: rest)

/-- The `while` transfer for a binary operator: pop
greater-or-equal precedence, except that an equal-precedence power
operator on the stack does not yield (right associativity). -/
def popBinary (prec : Nat) : List Token → List Token × List Token
  | [] => ([], [])
  | t :: rest =>
      if !isOpenParenT t && prec ≤ (tokOper t).prec then
        if (tokOper t).prec = prec && (tokOper t).func = some "y_to_the_x" then
          ([], t :: rest)
        else
          let (popped, remaining) := popBinary prec rest
          (t :: popped, remaining)
      else ([], t :: rest)

/-- What the compiler hands back to the caller: the `opreturn`, the
error lines it printed, the final cursor, and the reversed output
transferred onto the RPN queue. -/
structure SyResult where
  opret : Bool
  errs : List Err
  inRest : Option (List Char)
  queueAdd : List Token
  deriving DecidableEq, Repr

/-- The characters of the `strchr(" \t\v\r\n)+-", *input_ptr)` test that
keeps a `+`/`-` binary (end of input also counts, via the terminator). -/
def binarySignFollower (r : List Char) : Bool :=
  match r.head? with
  | none => true
  | some c => c = ' ' || c = '\t' || c = Char.ofNat 11 || c = '\r' || c = '\n' ||
              c = ')' || c = '+' || c = '-'

/-- One shunting-yard abort with the given error line(s). -/
def syAbort (errs : List Err) : SyResult :=
  { opret := false, errs := errs, inRest := none, queueAdd := [] }

/-- The code after the tokenizing loop: report unbalanced parentheses,
or transfer the output stack (reversing it) onto the RPN queue. -/
def syFinish (outS : List Token) (pc : ℕ) (p : List Char) : SyResult :=
  if pc ≠ 0 then { opret := false, errs := [.missingParens], inRest := some p, queueAdd := [] }
  else { opret := true, errs := [], inRest := some p, queueAdd := outS.reverse }

/-- The outcome of one iteration of the tokenizing loop: leave with a
result, or continue with the updated stacks, count and previous token. -/
inductive SyNext where
  | done (r : SyResult)
  | cont (rest : List Char) (outS opS : List Token) (pc : ℕ) (prev : Token)
  deriving DecidableEq, Repr

/-- The bottom of the loop body: leave when the parenthesis count hits
zero, otherwise iterate with the new previous token. -/
def syStep (rest : List Char) (outS opS : List Token) (pc : ℕ) (prev : Token) : SyNext :=
  if pc = 0 then .done (syFinish outS pc rest)
  else .cont rest outS opS pc prev

/-- One iteration of the `while (1)` body of `open_paren` (everything
between reading a token and the loop bottom). -/
def syBody (p : List Char) (outS opS : List Token) (pc : ℕ) (prev : Token) : SyNext :=
  let p := p.dropWhile isspaceC
  if p.isEmpty then .done (syFinish outS pc p)
  else
    match parseTok p false with
    | .illegal => .done (syAbort [.illegalChar, .unrecognized])
    | .unknown => .done (syAbort [.unrecognized])
    | .ok t rest =>
        if isLvalT prev && !isAssignT t then .done (syAbort [.seqError])
        else
          match t with
          | .lval _ =>
              if !isOpenParenT prev then .done (syAbort [.seqError])
              else syStep rest outS (t :: opS) pc t
          | .num _ =>
              if prevOperand prev then .done (syAbort [.seqError])
              else syStep rest (t :: outS) opS pc t
          | .sym _ =>
              if prevOperand prev then .done (syAbort [.seqError])
              else syStep rest (t :: outS) opS pc t
          | .op o =>
              if o.func = some "open_paren" then
                if prevOperand prev then .done (syAbort [.seqError])
                else syStep rest outS (t :: opS) (pc + 1) t
              else if o.func = some "close_paren" then
                if !prevOperand prev then .done (syAbort [.seqError])
                else
                  let (popped, opS1) := popUntilOpen opS
                  let outS1 := popped.reverse ++ outS
                  let opS2 := opS1.drop 1   -- discard the "("
                  match opS2 with
                  | tp :: opS3 =>
                      if (tokOper tp).operands = 1 then
                        syStep rest (tp :: outS1) opS3 (pc - 1) t
                      else
                        syStep rest outS1 opS2 (pc - 1) t
                  | [] => syStep rest outS1 opS2 (pc - 1) t
              else if o.operands = 1 then
                if prevOperand prev then .done (syAbort [.seqError])
                else
                  let (popped, opS1) := popUnary o.prec opS
                  syStep rest (popped.reverse ++ outS) (t :: opS1) pc t
              else if o.operands = 2 then
                if (o.func = some "subtract" || o.func = some "add") &&
                   !prevOperand prev && !binarySignFollower rest then
                  -- rewritten to chs / nop and handled as unary
                  let t' := if o.func = some "subtract" then chsignTok else nopTok
                  let o' := tokOper t'
                  let (popped, opS1) := popUnary o'.prec opS
                  syStep rest (popped.reverse ++ outS) (t' :: opS1) pc t'
                else if o.func = some "assignment" then
                  if !isLvalT prev then .done (syAbort [.seqError])
                  else syStep rest outS opS pc t
                else if !prevOperand prev then .done (syAbort [.seqError])
                else
                  let (popped, opS1) := popBinary o.prec opS
                  syStep rest (popped.reverse ++ outS) (t :: opS1) pc t
              else .done (syAbort [.unsuitableOper])
          | _ => .done (syAbort [.unrecognized])

/-- The tokenizing loop of `open_paren`.  `outS`/`opS` are the output
and operator stacks (head = top), `pc` the parenthesis count, `prev`
the previous token.  Fuel is bounded by the input length (each
iteration consumes at least one character); running out cannot happen
and is mapped to an abort. -/
def syLoop : ℕ → List Char → List Token → List Token → ℕ → Token → SyResult
  | 0, _, _, _, _, _ => syAbort []
  | fuel + 1, p, outS, opS, pc, prev =>
      match syBody p outS opS pc prev with
      | .done r => r
      | .cont rest outS' opS' pc' prev' => syLoop fuel rest outS' opS' pc' prev'

/-- `open_paren()`: run the shunting yard on the rest of the line and
splice its effects into the engine state.  The operand stack is never
touched; only the token stacks, the RPN queue, the cursor and the error
log are. -/
def exprCompile (s : State) : Bool × State :=
  let p := s.inputRest.getD []
  let r := syLoop (p.length + 1) p [] [openParenTok] 1 openParenTok
  (r.opret,
   { s with errors := s.errors ++ r.errs, inputRest := r.inRest,
            rpnQueue := r.queueAdd ++ s.rpnQueue })

/-! ## Operator dispatch and the evaluation loop -/

/-- Dispatch on the function pointer.  Operators whose exact behaviour
is not rational-representable (trig, logs, roots, constants pi/e, the
display/housekeeping commands) are outside the model: applying one
yields `none`. -/
def applyFunc (f : String) (s : State) : Option (Bool × State) :=
  if f = "add" then binArith LD.add s
  else if f = "subtract" then binArith LD.sub s
  else if f = "multiply" then binArith LD.mul s
  else if f = "divide" then binArith LD.div s
  else if f = "y_to_the_x" then powOp s
  else if f = "chsign" then chsignOp s
  else if f = "nop" then some (true, s)
  else if f = "repush" then repushOp s
  else if f = "exchange" then exchangeOp s
  else if f = "enter" then enterOp s
  else if f = "rolldown" then rolldownOp s
  else if f = "clear" then clearOp s
  else if f = "assignment" then some (true, s)
  else if f = "rshift" then rshiftOp s
  else if f = "lshift" then lshiftOp s
  else if f = "open_paren" then some (exprCompile s)
  else if f = "close_paren" then closeParenOp s
  else if f = "modefloat" then modeSwitchFloat s .F
  else if f = "modedec" then modeSwitchInt s .D
  else if f = "modeuns" then modeSwitchInt s .U
  else if f = "modehex" then modeSwitchInt s .H
  else if f = "modeoct" then modeSwitchInt s .O
  else if f = "modebin" then modeSwitchInt s .B
  else if f = "width" then widthOp s
  else none

/-- The switch of the main loop on one token.  NUMERIC goes through
`result_push`; operator-carrying tokens dispatch on the catalog; EOL
only drives autoprinting (display). -/
def execTok (s : State) (t : Token) : Option State :=
  match t with
  | .num v => resultPush s v
  | .op o => (o.func.bind fun f => applyFunc f s).map (·.2)
  | .sym o => (o.func.bind fun f => applyFunc f s).map (·.2)
  | .lval o => (o.func.bind fun f => applyFunc f s).map (·.2)
  | .eol => some s
  | .unk => some (addErr s .unrecognized)

/-- `gettoken`: skip blanks, produce EOL at end of line, tokenize in
RPN mode; on unrecognized input print the error and abandon the line. -/
def gettokenS (s : State) : Option Token × State :=
  match s.inputRest with
  | none => (none, s)
  | some p =>
      let p := p.dropWhile isspaceC
      if p.isEmpty then (some .eol, { s with inputRest := none })
      else
        match parseTok p true with
        | .ok t rest => (some t, { s with inputRest := some rest })
        | .illegal =>
            (none, { addErr (addErr s .illegalChar) .unrecognized with inputRest := none })
        | .unknown => (none, { addErr s .unrecognized with inputRest := none })

/-- The main read-eval loop, restricted to one line of input: tokens
come from the RPN queue first (freezing lastx), then from the line
(thawing it); the loop returns when both are exhausted (the program
would block for the next line there). -/
def mainLoop : ℕ → State → Option State
  | 0, _ => none
  | fuel + 1, s =>
      match s.rpnQueue with
      | t :: restQ =>
          let s1 := freezeLastx { s with rpnQueue := restQ }
          (execTok s1 t).bind (mainLoop fuel)
      | [] =>
          match s.inputRest with
          | none => some s
          | some _ =>
              match gettokenS s with
              | (none, s1) => mainLoop fuel s1
              | (some t, s1) => (execTok (thawLastx s1) t).bind (mainLoop fuel)

/-- `no_comments`: strip a `#` comment, then the locale thousands
separator (",") and currency symbol ("$") everywhere. -/
def noComments (l : List Char) : List Char :=
  ((l.takeWhile (· ≠ '#')).filter (· ≠ ',')).filter (· ≠ '$')

/-- Feed one line of input to the evaluation loop (the fuel bound is
generous: every iteration consumes input or a queued token, and queued
tokens are bounded by the input length). -/
def runLine (s : State) (line : String) : Option State :=
  let p := noComments line.toList
  mainLoop (4 * p.length + 16) { s with inputRest := some p }

/-! ## Statement-level definitions -/

/-- An integer mode is active (D, U, H, O or B). -/
def integerMode (m : Mode) : Bool := !floatingMode m

/-- The canonical-form predicate of the integer-mode stack invariant: a
value equals `sign_extend(truncate_to_int(v) & mask)` for width `W`.
Only finite values can satisfy it. -/
def isCanonB (W : ℕ) : LD → Bool
  | .fin q => decide (q = ((canonInt W (ratTrunc q) : ℤ) : ℚ))
  | _ => false

/-- Concrete state used by witnesses: a non-canonical float 3.7 on the
stack in float mode. -/
def c4s : State := { initState with stack := [.fin (37 / 10)] }

/-- What `modehex` makes of `c4s`. -/
def c4s' : State := { c4s with mode := .H, stack := [.fin 3], errors := [.accuracyLost] }

/-- Concrete state used by witnesses: operands 1 (below) and -1 (top). -/
def c7neg : State := { initState with stack := [.fin (-1), .fin 1] }

/-- Concrete state used by witnesses: operands 1 (below) and 200 (top). -/
def c7big : State := { initState with stack := [.fin 200, .fin 1] }

/-- Concrete state used by witnesses: a frozen lastx. -/
def c9f : State :=
  { initState with lastxFrozen := true, frozenLastx := .fin 9, stack := [.fin 2] }

/-! ## Arithmetic facts about the canonicalization -/

theorem canonInt_idem (W : ℕ) (z : ℤ) : canonInt W (canonInt W z) = canonInt W z := by
  unfold canonInt
  by_cases h64 : W = 64
  · simp [h64]
  · simp only [h64, if_false]
    have hpos : (0 : ℤ) < 2 ^ W := by positivity
    have hm0 : 0 ≤ z % (2 ^ W) := Int.emod_nonneg z (ne_of_gt hpos)
    have hmlt : z % (2 ^ W) < 2 ^ W := Int.emod_lt_of_pos z hpos
    set m := z % (2 ^ W) with hm
    have hself : m % (2 ^ W) = m := Int.emod_eq_of_lt hm0 hmlt
    by_cases hsb : 2 ^ (W - 1) ≤ m
    · simp only [hsb, if_true]
      have h1 : (m - 2 ^ W) % (2 ^ W) = m := by
        conv_lhs => rw [Int.sub_emod]
        simp [Int.emod_self, hself]
      rw [h1]
      simp [hsb]
    · simp only [hsb, if_false]
      rw [hself]
      simp [hsb]

theorem ratTrunc_intCast (z : ℤ) : ratTrunc ((z : ℤ) : ℚ) = z := by
  unfold ratTrunc
  simp [Rat.num_intCast, Rat.den_intCast]

theorem canonInt_range (W : ℕ) (hW : W ≤ 64) (z : ℤ)
    (hz : -(2 ^ 63) ≤ z ∧ z < 2 ^ 63) :
    -(2 ^ 63) ≤ canonInt W z ∧ canonInt W z < 2 ^ 63 := by
  unfold canonInt
  by_cases h64 : W = 64
  · simpa [h64] using hz
  · have hWlt : W ≤ 63 := by omega
    simp only [h64, if_false]
    have hpos : (0 : ℤ) < 2 ^ W := by positivity
    have hm0 : 0 ≤ z % (2 ^ W) := Int.emod_nonneg z (ne_of_gt hpos)
    have hmlt : z % (2 ^ W) < 2 ^ W := Int.emod_lt_of_pos z hpos
    have hle : (2 : ℤ) ^ W ≤ 2 ^ 63 := pow_le_pow_right₀ (by norm_num) hWlt
    set m := z % (2 ^ W)
    by_cases hsb : 2 ^ (W - 1) ≤ m
    · simp only [hsb, if_true]
      omega
    · simp only [hsb, if_false]
      omega

theorem canonInt_neg_sign_bit (W : ℕ) (hW : 1 ≤ W) :
    canonInt W (-(2 ^ (W - 1))) = -(2 ^ (W - 1)) := by
  unfold canonInt
  by_cases h64 : W = 64
  · simp [h64]
  · simp only [h64, if_false]
    have hWW : W - 1 < W := by omega
    have hlt : (2 : ℤ) ^ (W - 1) < 2 ^ W := pow_lt_pow_right₀ (by norm_num) hWW
    have hmod : (-(2 ^ (W - 1)) : ℤ) % (2 ^ W) = 2 ^ (W - 1) := by
      have h0 : (-(2 ^ (W - 1)) : ℤ) = (2 ^ (W - 1) - 2 ^ W) := by
        have h2 : (2 : ℤ) ^ W = 2 * 2 ^ (W - 1) := by
          rw [← pow_succ']
          congr 1
          omega
        omega
      rw [h0]
      conv_lhs => rw [Int.sub_emod]
      have hp0 : (0 : ℤ) ≤ 2 ^ (W - 1) := by positivity
      simp [Int.emod_self, Int.emod_eq_of_lt hp0 hlt]
    rw [hmod]
    simp only [le_refl, if_true]
    have h2 : (2 : ℤ) ^ W = 2 * 2 ^ (W - 1) := by
      rw [← pow_succ']
      congr 1
      omega
    omega

/-- The canonicalized image of any integer is itself a fixed point of
the canonicalization, i.e. canonical. -/
theorem isCanonB_canonInt (W : ℕ) (z : ℤ) :
    isCanonB W (.fin ((canonInt W z : ℤ) : ℚ)) = true := by
  simp only [isCanonB]
  rw [ratTrunc_intCast, canonInt_idem]
  simp

/-! ## Facts about the casts, pop, and the conversion pass -/

theorem llInRange_bounds {z : ℤ} (h : llInRange z = true) :
    -(2 ^ 63) ≤ z ∧ z < 2 ^ 63 := by
  unfold llInRange at h
  constructor
  · exact of_decide_eq_true (Bool.and_elim_left h)
  · exact of_decide_eq_true (Bool.and_elim_right h)

theorem llCast_eq_some {q : ℚ} {z : ℤ} (h : llCast q = some z) : z = ratTrunc q := by
  unfold llCast at h
  split at h
  · injection h with h1
    exact h1.symm
  · cases h

theorem popLD_cons_fst (s : State) (v : LD) (rest : List LD) (h : s.stack = v :: rest) :
    (popLD s).1 = some v := by
  unfold popLD
  rw [h]

theorem popLD_cons_stack (s : State) (v : LD) (rest : List LD) (h : s.stack = v :: rest) :
    (popLD s).2.stack = rest := by
  unfold popLD
  rw [h]
  simp only [addErr]
  split <;> split <;> rfl

/-- A pop whose bookkeeping checks all pass (stack level and mark below
the remaining depth) just removes the top element. -/
theorem popLD_clean (s : State) (v : LD) (rest : List LD)
    (h : s.stack = v :: rest)
    (hlev : s.stacklevel ≤ (rest.length : ℤ))
    (hmark : s.stackMark ≤ rest.length) :
    popLD s = (some v, { s with stack := rest }) := by
  unfold popLD
  rw [h]
  have h1 : ¬ ((rest.length : ℤ) < ({ s with stack := rest } : State).stacklevel) := by
    simp only [not_lt]
    exact hlev
  have h2 : ¬ (rest.length < ({ s with stack := rest } : State).stackMark) := by
    simp only [not_lt]
    exact hmark
  simp only [h1, if_false, h2]

theorem rat_trunc_nonneg (b : ℚ) (h : 0 ≤ b) : 0 ≤ ratTrunc b := by
  unfold ratTrunc
  apply Int.tdiv_nonneg
  · exact Rat.num_nonneg.mpr h
  · exact_mod_cast Nat.zero_le _

/-- Every value that comes out of `check_int_truncation` satisfies the
canonical-form predicate (finite values are masked and sign-extended,
non-finite ones become the width's minimum integer). -/
theorem checkIntTruncation_canon (W : ℕ) (hW : 1 ≤ W) (v v' : LD) (ch : Bool)
    (h : checkIntTruncation W v = some (v', ch)) : isCanonB W v' = true := by
  cases v with
  | fin q =>
      simp only [checkIntTruncation] at h
      cases hcast : llCast q with
      | none => rw [hcast] at h; cases h
      | some z =>
          have hz : z = ratTrunc q := llCast_eq_some hcast
          rw [hcast] at h
          simp only [Option.map_some'] at h
          by_cases heq : q = ((canonInt W z : ℤ) : ℚ)
          · rw [if_pos heq] at h
            injection h with h1
            have hv' : v' = .fin q := (congrArg Prod.fst h1).symm
            rw [hv']
            simp only [isCanonB]
            rw [← hz]
            exact decide_eq_true heq
          · rw [if_neg heq] at h
            injection h with h1
            have hv' : v' = .fin ((canonInt W z : ℤ) : ℚ) := (congrArg Prod.fst h1).symm
            rw [hv']
            exact isCanonB_canonInt W z
  | pinf =>
      simp only [checkIntTruncation] at h
      injection h with h1
      have hv' : v' = .fin ((-(2 ^ (W - 1)) : ℤ) : ℚ) := by
        have := congrArg Prod.fst h1
        simp at this
        rw [← this]
        norm_num
      rw [hv']
      simp only [isCanonB]
      rw [ratTrunc_intCast, canonInt_neg_sign_bit W hW]
      simp
  | ninf =>
      simp only [checkIntTruncation] at h
      injection h with h1
      have hv' : v' = .fin ((-(2 ^ (W - 1)) : ℤ) : ℚ) := by
        have := congrArg Prod.fst h1
        simp at this
        rw [← this]
        norm_num
      rw [hv']
      simp only [isCanonB]
      rw [ratTrunc_intCast, canonInt_neg_sign_bit W hW]
      simp
  | nan =>
      simp only [checkIntTruncation] at h
      injection h with h1
      have hv' : v' = .fin ((-(2 ^ (W - 1)) : ℤ) : ℚ) := by
        have := congrArg Prod.fst h1
        simp at this
        rw [← this]
        norm_num
      rw [hv']
      simp only [isCanonB]
      rw [ratTrunc_intCast, canonInt_neg_sign_bit W hW]
      simp

/-- Every finite entry the display-path conversion leaves on the stack
is canonical (non-finite entries pass through untouched). -/
theorem convStack_canon (W : ℕ) (hW : 1 ≤ W) :
    ∀ (l l' : List LD) (errs : List Err), convStack W l = some (l', errs) →
      ∀ v ∈ l', v.isFinite = true → isCanonB W v = true := by
  intro l
  induction l with
  | nil =>
      intro l' errs h v hv
      simp only [convStack] at h
      injection h with h1
      have : l' = [] := (congrArg Prod.fst h1).symm
      subst this
      cases hv
  | cons a as ih =>
      intro l' errs h v hv hfin
      simp only [convStack] at h
      by_cases haf : a.isFinite = true
      · rw [if_pos haf] at h
        cases h1 : convStack W as with
        | none => rw [h1] at h; cases h
        | some pr =>
            obtain ⟨rest', errs0⟩ := pr
            cases h2 : checkIntTruncation W a with
            | none => rw [h1, h2] at h; cases h
            | some vc =>
                obtain ⟨v0, ch⟩ := vc
                rw [h1, h2] at h
                injection h with h3
                have hl : l' = v0 :: rest' := (congrArg Prod.fst h3).symm
                subst hl
                cases (List.mem_cons.mp hv) with
                | inl hveq =>
                    subst hveq
                    exact checkIntTruncation_canon W hW a _ ch h2
                | inr hmem => exact ih rest' errs0 h1 v hmem hfin
      · rw [if_neg haf] at h
        cases h1 : convStack W as with
        | none => rw [h1] at h; cases h
        | some pr =>
            obtain ⟨rest', errs0⟩ := pr
            rw [h1] at h
            simp only [Option.map_some'] at h
            injection h with h3
            have hl : l' = a :: rest' := (congrArg Prod.fst h3).symm
            subst hl
            cases (List.mem_cons.mp hv) with
            | inl hveq =>
                subst hveq
                exact absurd hfin haf
            | inr hmem => exact ih rest' errs0 h1 v hmem hfin

/-! ## The claims -/

attribute [local semireducible] Rat.add Rat.mul Rat.inv Rat.sub

set_option maxRecDepth 2000000
set_option maxHeartbeats 8000000

/-- C1: RPN/in-fix equivalence: evaluating the RPN input "3 4 +" and
evaluating the parenthesized input "(3 + 4)" (compiled by the shunting
yard into RPN tokens that the evaluation loop then executes) both leave
the value 7 on top of the operand stack. -/
theorem claim1_rpn_paren_equiv_7 :
    (runLine initState "3 4 +").map (fun s => s.stack.head?) = some (some (.fin 7)) ∧
    (runLine initState "(3 + 4)").map (fun s => s.stack.head?) = some (some (.fin 7)) := by
  constructor
  · decide
  · decide

/-- C5: precedence: "(2 + 3 * 4)" evaluates to 14 and "((2 + 3) * 4)"
evaluates to 20 (multiplication binds tighter than addition; the yard
pops greater-or-equal precedence before pushing a binary operator). -/
theorem claim5_precedence_14_20 :
    (runLine initState "(2 + 3 * 4)").map State.stack = some [.fin 14] ∧
    (runLine initState "((2 + 3) * 4)").map State.stack = some [.fin 20] := by
  constructor
  · decide
  · decide

/-- C6: right associativity of the power operator: "(2 ^ 3 ^ 2)"
evaluates to 512 = 2^(3^2), not (2^3)^2 = 64, because an incoming power
operator does not pop an equal-precedence power operator. -/
theorem claim6_pow_right_assoc_512 :
    (runLine initState "(2 ^ 3 ^ 2)").map State.stack = some [.fin 512] := by
  decide

/-- C3 counterexample: executing "5 0 /" does NOT leave the stack at
5, 0 — the claim that the operands are restored is false on this
version of the code. -/
theorem claim3_counterexample :
    ¬ ((runLine initState "5 0 /").map State.stack = some [.fin 0, .fin 5]) := by
  decide

/-- C3 as amended: "5 0 /" pops both operands and pushes the IEEE
quotient +Inf; no error line is printed, no operand is restored, and
evaluation is defined (no crash); lastx records the popped divisor. -/
theorem claim3_div_zero_pushes_inf :
    (runLine initState "5 0 /").map (fun s => (s.stack, s.errors, s.lastx)) =
      some ([LD.pinf], [], .fin 0) := by
  decide

/-- C4 counterexample: with the hex (integer) mode active, "5 0 /"
leaves +Inf on the stack, which does not equal
`sign_extend(truncate_to_int(v) & mask)` for any width — the
at-all-times canonical-form invariant is false on the code. -/
theorem claim4_counterexample :
    (runLine initState "H 5 0 /").map
      (fun s => (integerMode s.mode, s.stack.all (isCanonB s.intWidth))) =
      some (true, false) := by
  decide

/-- C7 counterexample: the shift count 200 is ≥ the width, yet
"1 200 >>" is not a domain error: it pushes 0 (the operands are not
restored, and no error is reported). -/
theorem claim7_counterexample :
    (runLine initState "1 200 >>").map (fun s => (s.stack, s.errors)) =
      some ([.fin 0], []) := by
  decide

/-- C8 counterexample: the literal "1.00000095367431640625" (exactly
1 + 2^-20) is parsed to 1048577/1048576, but the evaluation loop pushes
it through result_push, whose rounding to 18 significant digits stores
a different value — typed literals are NOT pushed unmodified. -/
theorem claim8_counterexample :
    parseTok "1.00000095367431640625".toList true =
      .ok (.num (.fin (1048577 / 1048576))) [] ∧
    (runLine initState "1.00000095367431640625").map State.stack =
      some [.fin (100000095367431641 / 100000000000000000)] ∧
    (1048577 / 1048576 : ℚ) ≠ (100000095367431641 / 100000000000000000 : ℚ) := by
  refine ⟨?_, ?_, ?_⟩
  · decide
  · decide
  · decide

/-- C9 counterexample: after "2 3 +" the lastx register is 3 (the
operand consumed by +) and the top of stack is 5; appending the
expression "(1+1)" commits lastx to 5 — the pre-expression TOP OF
STACK — not to its own pre-expression value 3, so the register is not
frozen at its pre-expression value.  Likewise "lx" inside an expression
pushes 5, not 3: "2 3 + (1+lx)" leaves 6 on top. -/
theorem claim9_counterexample :
    (runLine initState "2 3 +").map (fun s => (s.lastx, s.stack.head?)) =
      some (.fin 3, some (.fin 5)) ∧
    (runLine initState "2 3 + (1+1)").map State.lastx = some (.fin 5) ∧
    (runLine initState "2 3 + (1+lx)").map (fun s => s.stack.head?) =
      some (some (.fin 6)) ∧
    LD.fin 5 ≠ LD.fin 3 := by
  refine ⟨?_, ?_, ?_, ?_⟩
  · decide
  · decide
  · decide
  · decide

/-- C2: mode canonicalization: while an integer mode is active with
width W, push(v) of a finite value in the long-long cast range stores
`sign_extend(truncate(v) & mask(W))`; pop() returns that value and
restores the stack; pushing and popping the returned value again yields
the same value (push/pop is idempotent).  (For a non-finite v the
formula does not denote and push stores v unchanged, so the claim is
read over finite, cast-representable values.) -/
theorem claim2_mode_canonicalization (s : State) (q : ℚ)
    (hmode : integerMode s.mode = true)
    (hrange : llInRange (ratTrunc q) = true)
    (hW : s.intWidth ≤ 64) :
    ∃ s1 s2,
      pushLD s (.fin q) = some s1 ∧
      s1.stack = .fin ((canonInt s.intWidth (ratTrunc q) : ℤ) : ℚ) :: s.stack ∧
      (popLD s1).1 = some (.fin ((canonInt s.intWidth (ratTrunc q) : ℤ) : ℚ)) ∧
      (popLD s1).2.stack = s.stack ∧
      pushLD (popLD s1).2 (.fin ((canonInt s.intWidth (ratTrunc q) : ℤ) : ℚ)) = some s2 ∧
      s2.stack = .fin ((canonInt s.intWidth (ratTrunc q) : ℤ) : ℚ) :: s.stack := by
  have hfl : floatingMode s.mode = false := by
    unfold integerMode at hmode
    cases hfm : floatingMode s.mode
    · rfl
    · rw [hfm] at hmode
      simp at hmode
  set c : ℤ := canonInt s.intWidth (ratTrunc q) with hc
  have hcast : llCast q = some (ratTrunc q) := by
    unfold llCast
    rw [hrange]
    rfl
  have hpush1 : pushLD s (.fin q) = some { s with stack := .fin (c : ℚ) :: s.stack } := by
    simp [pushLD, hfl, hcast]
  have hcrange : -(2 ^ 63) ≤ c ∧ c < 2 ^ 63 :=
    canonInt_range s.intWidth hW (ratTrunc q) (llInRange_bounds hrange)
  have htc : ratTrunc ((c : ℤ) : ℚ) = c := ratTrunc_intCast c
  have hcastc : llCast ((c : ℤ) : ℚ) = some c := by
    unfold llCast
    rw [htc]
    have : llInRange c = true := by
      unfold llInRange
      rw [decide_eq_true hcrange.1, decide_eq_true hcrange.2]
      rfl
    rw [this]
    rfl
  set s1 : State := { s with stack := .fin (c : ℚ) :: s.stack } with hs1
  have hpop1 : (popLD s1).1 = some (.fin (c : ℚ)) := popLD_cons_fst s1 _ s.stack rfl
  have hpops : (popLD s1).2.stack = s.stack := popLD_cons_stack s1 _ s.stack rfl
  have hpush2 : pushLD (popLD s1).2 (.fin (c : ℚ)) =
      some { (popLD s1).2 with
             stack := .fin ((canonInt (popLD s1).2.intWidth c : ℤ) : ℚ) :: (popLD s1).2.stack } := by
    have hfl2 : floatingMode (popLD s1).2.mode = false := by
      have : (popLD s1).2.mode = s.mode := by
        unfold popLD
        simp only [hs1]
        simp only [addErr]
        split <;> split <;> rfl
      rw [this, hfl]
    simp [pushLD, hfl2, hcastc]
  have hWpop : (popLD s1).2.intWidth = s.intWidth := by
    unfold popLD
    simp only [hs1]
    simp only [addErr]
    split <;> split <;> rfl
  refine ⟨s1, _, hpush1, rfl, hpop1, hpops, hpush2, ?_⟩
  simp only [hWpop, hpops]
  rw [canonInt_idem]

/-- C2 witness: in hex mode with width 8, pushing 300 stores
sign_extend(300 & 0xff) = 44; popping returns 44, and pushing/popping
44 again returns 44. -/
theorem claim2_witness :
    canonInt 8 (ratTrunc (300 : ℚ)) = 44 ∧
    (∃ s1 s2,
      pushLD { initState with mode := Mode.H, intWidth := 8 } (.fin 300) = some s1 ∧
      s1.stack = [.fin ((canonInt 8 (ratTrunc 300) : ℤ) : ℚ)] ∧
      (popLD s1).1 = some (.fin ((canonInt 8 (ratTrunc 300) : ℤ) : ℚ)) ∧
      (popLD s1).2.stack = [] ∧
      pushLD (popLD s1).2 (.fin ((canonInt 8 (ratTrunc 300) : ℤ) : ℚ)) = some s2 ∧
      s2.stack = [.fin ((canonInt 8 (ratTrunc 300) : ℤ) : ℚ)]) :=
  ⟨by decide,
   claim2_mode_canonicalization { initState with mode := Mode.H, intWidth := 8 } 300
     (by decide) (by decide) (by decide)⟩

/-- C4 as amended: switching the active mode into an integer mode
re-canonicalizes every FINITE stack entry in place (masked and
sign-extended for the current width), so a non-canonical float such as
3.7 does not remain stored after the switch; the width is unchanged.
Non-finite entries are left untouched by the switch (the display path
prints them in floating format and skips the conversion), and a
non-finite result computed while an integer mode is active is stored
unchanged, so the at-all-times every-entry version of the invariant is
false (`claim4_counterexample`). -/
theorem claim4_mode_switch (s : State) (m : Mode) (b : Bool) (s' : State)
    (hW : 1 ≤ s.intWidth)
    (h : modeSwitchInt s m = some (b, s')) :
    s'.intWidth = s.intWidth ∧ s'.mode = m ∧
    ∀ v ∈ s'.stack, v.isFinite = true → isCanonB s'.intWidth v = true := by
  unfold modeSwitchInt at h
  cases h1 : convStack s.intWidth s.stack with
  | none => rw [h1] at h; cases h
  | some pr =>
      obtain ⟨st, errs⟩ := pr
      rw [h1] at h
      simp only [Option.map_some'] at h
      injection h with h2
      have hs' : s' = { s with mode := m, stack := st, errors := s.errors ++ errs } :=
        (congrArg Prod.snd h2).symm
      subst hs'
      refine ⟨rfl, rfl, ?_⟩
      intro v hv hfin
      exact convStack_canon s.intWidth hW s.stack st errs h1 v hv hfin

/-- C4 witness: switching a stack holding the non-canonical float 3.7
into hex mode leaves every finite entry canonical; the 3.7 is replaced
by 3 (with an accuracy-loss warning). -/
theorem claim4_witness :
    (c4s'.intWidth = c4s.intWidth ∧ c4s'.mode = .H ∧
     ∀ v ∈ c4s'.stack, v.isFinite = true → isCanonB c4s'.intWidth v = true) ∧
    c4s'.stack = [.fin 3] :=
  ⟨claim4_mode_switch c4s .H true c4s' (by decide) (by decide), by decide⟩

/-- C7 as amended: for the shift operators >> and <<, a NEGATIVE shift
count is a domain error: the operation is not applied, both operands
are pushed back unchanged in their original order, and an error is
reported.  A shift count ≥ 128 (the bit size of a long double, not the
active integer width) is NOT an error: the shifted operand is consumed
and 0 is pushed.  (Counts in [64, 128) reach a C shift with an
over-width count, which is undefined behaviour and outside the model;
`claim7_counterexample` refutes the original claim's ≥-width error.) -/
theorem claim7_shift_domain (s : State) (a b : ℚ) (rest : List LD)
    (hstack : s.stack = .fin b :: .fin a :: rest)
    (hmode : s.mode = .F)
    (hlev : s.stacklevel ≤ (rest.length : ℤ))
    (hmark : s.stackMark ≤ rest.length)
    (htb : tooBig2 a b = false)
    (ha : 0 ≤ ratTrunc a) (hA : llInRange (ratTrunc a) = true)
    (hb : llInRange (ratTrunc b) = true) :
    (ratTrunc b < 0 →
       rshiftOp s = some (false,
         { s with stack := .fin b :: .fin a :: rest,
                  errors := s.errors ++ [.shiftNegative] }) ∧
       lshiftOp s = some (false,
         { s with stack := .fin b :: .fin a :: rest,
                  errors := s.errors ++ [.shiftNegative] })) ∧
    ((128 : ℚ) ≤ b →
       rshiftOp s = some (true, { s with stack := .fin 0 :: rest, lastx := .fin b }) ∧
       lshiftOp s = some (true, { s with stack := .fin 0 :: rest, lastx := .fin b })) := by
  have hrestlev : s.stacklevel ≤ ((LD.fin a :: rest).length : ℤ) := by
    simp only [List.length_cons]
    push_cast
    omega
  have hrestmark : s.stackMark ≤ (LD.fin a :: rest).length := by
    simp only [List.length_cons]
    omega
  have hpop1 : popLD s = (some (.fin b), { s with stack := .fin a :: rest }) :=
    popLD_clean s _ _ hstack hrestlev hrestmark
  set s1 : State := { s with stack := .fin a :: rest } with hs1
  have hpop2 : popLD s1 = (some (.fin a), { s1 with stack := rest }) :=
    popLD_clean s1 _ _ rfl hlev hmark
  have hboth : bothFinite (.fin a) (.fin b) ({ s1 with stack := rest }) = none := rfl
  have ha2 : ratTrunc a < 2 ^ 64 := by
    have := (llInRange_bounds hA).2
    omega
  have hull : ullCast a = some (ratTrunc a) := by
    unfold ullCast
    rw [decide_eq_true ha, decide_eq_true ha2]
    rfl
  have hllA : llCast a = some (ratTrunc a) := by
    unfold llCast
    rw [hA]
    rfl
  have hll : llCast b = some (ratTrunc b) := by
    unfold llCast
    rw [hb]
    rfl
  constructor
  · intro hneg
    have hpa : pushLD ({ s1 with stack := rest }) (.fin a) =
        some { s1 with stack := .fin a :: rest } := by
      simp [pushLD, floatingMode, hmode]
    have hpb : pushLD (addErr { s1 with stack := .fin a :: rest } .shiftNegative) (.fin b) =
        some { s1 with stack := .fin b :: .fin a :: rest,
                       errors := s.errors ++ [.shiftNegative] } := by
      simp [pushLD, floatingMode, addErr, hmode]
    constructor
    · simp only [rshiftOp, hpop1, hpop2, hboth, htb, Bool.false_eq_true, if_false,
                 hull, hll, Option.some_bind, if_pos hneg, hpa, hpb, Option.map_some']
    · simp only [lshiftOp, hpop1, hpop2, hboth, htb, Bool.false_eq_true, if_false,
                 hllA, hll, Option.some_bind, if_pos hneg, hpa, hpb, Option.map_some']
  · intro hge
    have hbnonneg : ¬ (ratTrunc b < 0) := by
      simp only [not_lt]
      exact rat_trunc_nonneg b (le_trans (by norm_num) hge)
    have hp0 : pushLD ({ s1 with stack := rest }) (.fin 0) =
        some { s1 with stack := .fin 0 :: rest } := by
      simp [pushLD, floatingMode, hmode]
    constructor
    · simp only [rshiftOp, hpop1, hpop2, hboth, htb, Bool.false_eq_true, if_false,
                 hull, hll, Option.some_bind, if_neg hbnonneg, if_pos hge, hp0, Option.map_some']
    · simp only [lshiftOp, hpop1, hpop2, hboth, htb, Bool.false_eq_true, if_false,
                 hllA, hll, Option.some_bind, if_neg hbnonneg, if_pos hge, hp0, Option.map_some']

/-- C7 witness: shifting 1 by -1 (either direction) restores both
operands (1 below, -1 on top) and reports the negative-shift error;
shifting 1 by 200 pushes 0 without any error. -/
theorem claim7_witness :
    (rshiftOp c7neg = some (false,
      { c7neg with stack := [.fin (-1), .fin 1], errors := [.shiftNegative] }) ∧
     lshiftOp c7neg = some (false,
      { c7neg with stack := [.fin (-1), .fin 1], errors := [.shiftNegative] })) ∧
    (rshiftOp c7big = some (true, { c7big with stack := [.fin 0], lastx := .fin 200 }) ∧
     lshiftOp c7big = some (true, { c7big with stack := [.fin 0], lastx := .fin 200 })) :=
  ⟨(claim7_shift_domain c7neg 1 (-1) [] (by decide) (by decide) (by decide) (by decide)
      (by decide) (by decide) (by decide) (by decide)).1 (by decide),
   (claim7_shift_domain c7big 1 200 [] (by decide) (by decide) (by decide) (by decide)
      (by decide) (by decide) (by decide) (by decide)).2 (by decide)⟩

/-- C8 as amended: the float-stabilization transform is applied by
result_push to every finite value routed through it — and the
evaluation loop routes typed numeric literals through result_push too
(main's NUMERIC case), so a typed literal is stored as
tweak_float(parsed value), not necessarily as its parsed value
(`claim8_counterexample` exhibits a literal that changes). -/
theorem claim8_snapping_via_result_push :
    (∀ (s : State) (v : LD), resultPush s v = pushLD s (tweakLD s.doRounding v)) ∧
    (∀ (s : State) (q : ℚ), execTok s (.num (.fin q)) = pushLD s (.fin (tweakQ s.doRounding q))) := by
  constructor
  · intro s v
    cases v <;> simp [resultPush, tweakLD, LD.isFinite]
  · intro s q
    simp [execTok, resultPush, tweakLD, LD.isFinite]

/-- C9 as amended: the value frozen at the start of queued-token
execution is the pre-expression TOP OF STACK (0 when empty), not the
lastx register's own prior value; while frozen, the lastx operator
pushes exactly that frozen value, and thawing (at the first
post-expression token) commits lastx to it — so the expression's
internal operator applications have no effect on the lastx observable
afterward. -/
theorem claim9_lastx_freeze_mechanism (s : State) :
    (s.lastxFrozen = false →
       (freezeLastx s).frozenLastx = s.stack.headD (.fin 0) ∧
       (freezeLastx s).lastxFrozen = true ∧
       (freezeLastx s).lastx = s.lastx) ∧
    (s.lastxFrozen = true →
       applyFunc "repush" s = (pushLD s s.frozenLastx).map (fun s2 => (true, s2))) ∧
    (s.lastxFrozen = true → (thawLastx s).lastx = s.frozenLastx) := by
  refine ⟨?_, ?_, ?_⟩
  · intro h
    simp [freezeLastx, h]
  · intro h
    simp [applyFunc, repushOp, h]
  · intro h
    unfold thawLastx
    rw [if_pos h]
    simp only [addErr]
    split <;> rfl

/-- C9 witness: freezing the initial (empty-stack) state captures 0 and
keeps lastx; in a frozen state with frozen value 9, the lastx operator
pushes 9 and thawing sets lastx to 9. -/
theorem claim9_witness :
    ((freezeLastx initState).frozenLastx = initState.stack.headD (.fin 0) ∧
     (freezeLastx initState).lastxFrozen = true ∧
     (freezeLastx initState).lastx = initState.lastx) ∧
    (applyFunc "repush" c9f = (pushLD c9f c9f.frozenLastx).map (fun s2 => (true, s2))) ∧
    ((thawLastx c9f).lastx = c9f.frozenLastx) :=
  ⟨(claim9_lastx_freeze_mechanism initState).1 rfl,
   (claim9_lastx_freeze_mechanism c9f).2.1 rfl,
   (claim9_lastx_freeze_mechanism c9f).2.2 rfl⟩

/-- C10: compiling a parenthesized expression never modifies the
operand stack (nor the mode, width or lastx machinery): open_paren only
consumes input text and manipulates the token stacks, the RPN queue and
the error log — for every input, including every malformed expression
that aborts with an error, the operand stack is exactly as before. -/
theorem claim10_compile_frame (s : State) :
    (exprCompile s).2.stack = s.stack ∧ (exprCompile s).2.mode = s.mode ∧
    (exprCompile s).2.lastx = s.lastx ∧ (exprCompile s).2.intWidth = s.intWidth ∧
    (exprCompile s).2.lastxFrozen = s.lastxFrozen ∧
    (exprCompile s).2.frozenLastx = s.frozenLastx :=
  ⟨rfl, rfl, rfl, rfl, rfl, rfl⟩

end Rca
